import Mathlib

/-!
Verification development for the pin-sheet generator (`pins_iterate.py`).

The core pipeline is embedded shallowly:

* normalized coordinates and pixel geometry are rationals (`ℚ`); a Python
  `int(...)` truncation toward zero is `pyInt`;
* raster side effects are reified as lists of drawing operations (`DrawOp`,
  `GridOp`): each theorem speaks about the exact operations the code issues
  to the raster library, in order;
* JSON dictionaries are embedded as structures of `Option` fields.  For the
  `hole_location` entry the source uses subscript access (`green_config[...]`),
  which raises `KeyError` when the key is absent, so that field is doubly
  optional: the outer `Option` is key presence, the inner one nullness.  The
  other three zones are read with `.get`, which collapses a missing key and a
  null value, so a single `Option` suffices;
* fallible steps return `Except Unit` / `Option`; text placement inside a
  badge depends on runtime font metrics and is abstracted to the badge's
  hole number (the badge circle geometry is kept exactly).
-/

/-- A normalized point, each coordinate in `[0,1]` scaled by the image size. -/
structure Pt where
  x : ℚ
  y : ℚ
deriving DecidableEq, Repr

/-- An `{origin, extent}` record; either corner may be missing or null. -/
structure Zone where
  origin : Option Pt
  extent : Option Pt
deriving DecidableEq, Repr

/-- The `green_configuration` dictionary.  `hole_location` is read with
`[...]` in the source, so the outer `Option` models key presence (`none` =
`KeyError`) and the inner one a null value; the other zones are read with
`.get` and are a single `Option`. -/
structure GreenConfiguration where
  hole_location : Option (Option Zone)
  approach : Option Zone
  go_for : Option Zone
  crosshairs : Option Zone
deriving DecidableEq, Repr

inductive Color where
  | black
  | green
  | orange
  | red
  | white
deriving DecidableEq, Repr

/-- One drawing operation issued to the raster library, with the numeric
arguments exactly as the source passes them. -/
inductive DrawOp where
  | ellipseFill (x0 y0 x1 y1 : ℚ) (color : Color)
  | ellipseOutline (x0 y0 x1 y1 : ℚ) (color : Color) (width : ℕ)
  | line (x0 y0 x1 y1 : ℚ) (color : Color) (width : ℕ)
deriving DecidableEq, Repr

/-- Python `int(...)` on a real value: truncation toward zero. -/
def pyInt (q : ℚ) : ℤ :=
  if 0 ≤ q then ⌊q⌋ else ⌈q⌉

/-- A rational that is (exactly) an integer. -/
def isInt (q : ℚ) : Prop := ∃ n : ℤ, q = (n : ℚ)

/-- Pin-marker operations (`draw.ellipse(..., fill="black")`), drawn when the
`hole_location` value is non-null and has an `origin`. -/
def pinOps (W H : ℚ) (hl : Option Zone) : List DrawOp :=
  match hl with
  | some z =>
    match z.origin with
    | some o =>
      [.ellipseFill (o.x * W - 5) (o.y * H - 5) (o.x * W + 5) (o.y * H + 5) .black]
    | none => []
  | none => []

/-- Approach-bracket operations: one vertical line at the origin's x, one
horizontal line at the origin's y, green, width 3 (float coordinates). -/
def approachOps (W H : ℚ) (approach : Option Zone) : List DrawOp :=
  match approach with
  | some z =>
    match z.origin, z.extent with
    | some o, some e =>
      let x1 := o.x * W
      let y1 := o.y * H
      let x2 := e.x * W
      let y2 := e.y * H
      [.line x1 (min y1 y2) x1 (max y1 y2) .green 3,
       .line (min x1 x2) y1 (max x1 x2) y1 .green 3]
    | _, _ => []
  | none => []

/-- Go-for-bracket operations: same shape as the approach bracket, orange,
with every coordinate passed through `int(...)`. -/
def goForOps (W H : ℚ) (go_for : Option Zone) : List DrawOp :=
  match go_for with
  | some z =>
    match z.origin, z.extent with
    | some o, some e =>
      let x1 := o.x * W
      let y1 := o.y * H
      let x2 := e.x * W
      let y2 := e.y * H
      [.line (pyInt x1) (pyInt (min y1 y2)) (pyInt x1) (pyInt (max y1 y2)) .orange 3,
       .line (pyInt (min x1 x2)) (pyInt y1) (pyInt (max x1 x2)) (pyInt y1) .orange 3]
    | _, _ => []
  | none => []

/-- Crosshair operations: outlined circle at the bounding box's midpoint with
radius half the smaller side, plus the two full-extent centerlines, red,
width 2, with `int(...)` on every coordinate. -/
def crosshairsOps (W H : ℚ) (crosshairs : Option Zone) : List DrawOp :=
  match crosshairs with
  | some z =>
    match z.origin, z.extent with
    | some o, some e =>
      let ox := o.x * W
      let oy := o.y * H
      let ex := e.x * W
      let ey := e.y * H
      let xs := min ox ex
      let xe := max ox ex
      let ys := min oy ey
      let ye := max oy ey
      let cx := (xs + xe) / 2
      let cy := (ys + ye) / 2
      let r := min (xe - xs) (ye - ys) / 2
      [.ellipseOutline (pyInt (cx - r)) (pyInt (cy - r)) (pyInt (cx + r)) (pyInt (cy + r)) .red 2,
       .line (pyInt xs) (pyInt cy) (pyInt xe) (pyInt cy) .red 2,
       .line (pyInt cx) (pyInt ys) (pyInt cx) (pyInt ye) .red 2]
    | _, _ => []
  | none => []

/-- `draw_90_degree_lines`: the whole overlay pass over one image of size
`W × H`, embedded as one definition mirroring the one source function.
Subscript access `green_config['hole_location']` raises `KeyError` when the
key is absent (`Except.error ()`); otherwise the four zone blocks run in
sequence and their operations accumulate in order on the shared context. -/
def draw_90_degree_lines (W H : ℚ) (green_config : GreenConfiguration) :
    Except Unit (List DrawOp) :=
  match green_config.hole_location with
  | none => .error ()
  | some hole_location =>
    let ops1 : List DrawOp :=
      match hole_location with
      | some z =>
        match z.origin with
        | some o =>
          [.ellipseFill (o.x * W - 5) (o.y * H - 5) (o.x * W + 5) (o.y * H + 5) .black]
        | none => []
      | none => []
    let ops2 : List DrawOp :=
      match green_config.approach with
      | some z =>
        match z.origin, z.extent with
        | some o, some e =>
          let x1 := o.x * W
          let y1 := o.y * H
          let x2 := e.x * W
          let y2 := e.y * H
          [.line x1 (min y1 y2) x1 (max y1 y2) .green 3,
           .line (min x1 x2) y1 (max x1 x2) y1 .green 3]
        | _, _ => []
      | none => []
    let ops3 : List DrawOp :=
      match green_config.go_for with
      | some z =>
        match z.origin, z.extent with
        | some o, some e =>
          let x1 := o.x * W
          let y1 := o.y * H
          let x2 := e.x * W
          let y2 := e.y * H
          [.line (pyInt x1) (pyInt (min y1 y2)) (pyInt x1) (pyInt (max y1 y2)) .orange 3,
           .line (pyInt (min x1 x2)) (pyInt y1) (pyInt (max x1 x2)) (pyInt y1) .orange 3]
        | _, _ => []
      | none => []
    let ops4 : List DrawOp :=
      match green_config.crosshairs with
      | some z =>
        match z.origin, z.extent with
        | some o, some e =>
          let ox := o.x * W
          let oy := o.y * H
          let ex := e.x * W
          let ey := e.y * H
          let xs := min ox ex
          let xe := max ox ex
          let ys := min oy ey
          let ye := max oy ey
          let cx := (xs + xe) / 2
          let cy := (ys + ye) / 2
          let r := min (xe - xs) (ye - ys) / 2
          [.ellipseOutline (pyInt (cx - r)) (pyInt (cy - r)) (pyInt (cx + r)) (pyInt (cy + r)) .red 2,
           .line (pyInt xs) (pyInt cy) (pyInt xe) (pyInt cy) .red 2,
           .line (pyInt cx) (pyInt ys) (pyInt cx) (pyInt ye) .red 2]
        | _, _ => []
      | none => []
    .ok (ops1 ++ ops2 ++ ops3 ++ ops4)

/-- The raw per-hole configuration response (`config_data`): a truthy JSON
dictionary that may or may not contain the `green_configuration` key
(`none` models a response where the key is absent, which the fetch step
warns about but still stores). -/
structure ConfigDict where
  green_configuration : Option GreenConfiguration
deriving DecidableEq, Repr

/-- Annotating one hole's image: `config['green_configuration']` raises
`KeyError` when the key is absent, then `draw_90_degree_lines` runs. -/
def annotateImage (W H : ℚ) (config : ConfigDict) : Except Unit (List DrawOp) :=
  match config.green_configuration with
  | none => .error ()
  | some gc => draw_90_degree_lines W H gc

/-- One row of `holes_data` as seen by the per-hole processing loop. -/
structure HoleRow where
  hole_number : ℕ
  imgW : ℚ
  imgH : ℚ
  /-- whether `os.path.exists(file_path)` holds for this hole's download -/
  file_on_disk : Bool
  /-- the stored `green_config` cell: `none` models both a null cell and a
  falsy (empty) response dictionary -/
  green_config : Option ConfigDict
deriving DecidableEq, Repr

/-- The loop body of `process_images_with_configurations` for one row.
`some (some ops)` and `some none` are the two `append` calls of the source
(success, and the guard's else-branch appending `None`); the outer `none`
is the `except` branch, which shows an error message and appends nothing. -/
def processOneRow (row : HoleRow) : Option (Option (List DrawOp)) :=
  match row.file_on_disk, row.green_config with
  | true, some config =>
    match annotateImage row.imgW row.imgH config with
    | .ok ops => some (some ops)
    | .error _ => none
  | _, _ => some none

/-- `process_images_with_configurations`: runs the loop over every row and
then assigns the accumulated list as a new DataFrame column.  The pandas
assignment raises `ValueError` (`Except.error ()`) when the list's length
differs from the number of rows. -/
def process_images_with_configurations (rows : List HoleRow) :
    Except Unit (List (HoleRow × Option (List DrawOp))) :=
  let processed_images := rows.filterMap processOneRow
  if processed_images.length = rows.length then
    .ok (rows.zip processed_images)
  else
    .error ()

/-- An in-memory raster image: its pixel size and an identifying tag. -/
structure Img where
  width : ℕ
  height : ℕ
  tag : ℕ
deriving DecidableEq, Repr

/-- One drawing/pasting operation issued while composing a grid.  The badge
text's pixel position depends on runtime font metrics, so the text operation
is abstracted to the hole number it renders; the badge circle's bounding box
is kept exactly. -/
inductive GridOp where
  | paste (tag : ℕ) (x y : ℕ)
  | badgeCircle (x0 y0 x1 y1 : ℤ)
  | badgeText (hole_number : ℕ)
deriving DecidableEq, Repr

/-- Python list subscripting with an `Int` index (negative indices address
from the end; out of range is `none`). -/
def pySubscript (xs : List α) (i : ℤ) : Option α :=
  if 0 ≤ i then xs.get? i.toNat
  else if 0 ≤ (xs.length : ℤ) + i then xs.get? ((xs.length : ℤ) + i).toNat
  else none

/-- The guarded image lookup of the grid loop:
`image_idx = hole_number - 1 if hole_number <= 9 else hole_number - 10`,
then `if image_idx < len(images) and images[image_idx]`.  (At both call
sites hole numbers are 1–18, so `image_idx` is never negative.) -/
def lookupCellImage (images : List (Option Img)) (hole_number : ℕ) : Option Img :=
  let image_idx : ℤ :=
    if hole_number ≤ 9 then (hole_number : ℤ) - 1 else (hole_number : ℤ) - 10
  if image_idx < (images.length : ℤ) then
    match pySubscript images image_idx with
    | some (some img) => some img
    | _ => none
  else none

/-- The body of the grid loop for one `(idx, hole_number)` pair: the cell's
position in column-first order, then — only when the looked-up image is
present — a paste, the badge circle (`number_margin = 20`, radius 30,
white fill, black outline, width 3) and the badge text. -/
def gridCellOps (images : List (Option Img)) (grid_size margin_size iw ih : ℕ)
    (idx hole_number : ℕ) : List GridOp :=
  let col := idx / grid_size
  let row := idx % grid_size
  let x_position := margin_size + col * (iw + margin_size)
  let y_position := margin_size + row * (ih + margin_size)
  match lookupCellImage images hole_number with
  | some img =>
    [.paste img.tag x_position y_position,
     .badgeCircle ((x_position : ℤ) + 20 - 30) ((y_position : ℤ) + 20 - 30)
                  ((x_position : ℤ) + 20 + 30) ((y_position : ℤ) + 20 + 30),
     .badgeText hole_number]
  | none => []

/-- A composed grid image: its pixel size and the operations drawn onto the
white background, in order. -/
structure GridImage where
  width : ℕ
  height : ℕ
  ops : List GridOp
deriving DecidableEq, Repr

/-- `create_grid_image`: fails (error message, `None` returned) when no
valid image exists; otherwise takes the cell size from the first valid
image, allocates the white canvas and runs the cell loop over
`enumerate(hole_numbers)`. -/
def create_grid_image (images : List (Option Img)) (hole_numbers : List ℕ)
    (grid_size : ℕ) (margin_size : ℕ) : Option GridImage :=
  match images.filterMap id with
  | [] => none
  | first :: _ =>
    let iw := first.width
    let ih := first.height
    let grid_image_width := iw * grid_size + margin_size * (grid_size + 1)
    let grid_image_height := ih * grid_size + margin_size * (grid_size + 1)
    some { width := grid_image_width
           height := grid_image_height
           ops := (hole_numbers.enum).flatMap
             (fun p => gridCellOps images grid_size margin_size iw ih p.1 p.2) }

/-- One PDF page as `create_pdf_with_grids` draws it: the pixel size of the
grid image drawn on it and the rectangle handed to `drawImage`. -/
structure PdfPage where
  imgW : ℕ
  imgH : ℕ
  x : ℚ
  y : ℚ
  drawW : ℚ
  drawH : ℚ
deriving DecidableEq, Repr

/-- `create_pdf_with_grids` on letter paper (612 × 792 pt), margin 25 pt,
header block 50 pt.  The scale factor and the centered position are computed
once, from the front grid's size, and the back page's `drawImage` call also
reuses `front_width`/`front_height`. -/
def create_pdf_with_grids (front_grid back_grid : GridImage) : PdfPage × PdfPage :=
  let page_width : ℚ := 612
  let page_height : ℚ := 792
  let margin : ℚ := 25
  let top_text_space : ℚ := 50
  let available_width := page_width - 2 * margin
  let available_height := page_height - 2 * margin - top_text_space
  let front_width : ℚ := front_grid.width
  let front_height : ℚ := front_grid.height
  let scale_factor := min (available_width / front_width) (available_height / front_height)
  let x_centered := margin + (available_width - front_width * scale_factor) / 2
  let y_centered := margin + (available_height - front_height * scale_factor) / 2
  ({ imgW := front_grid.width, imgH := front_grid.height
     x := x_centered, y := y_centered
     drawW := front_width * scale_factor, drawH := front_height * scale_factor },
   { imgW := back_grid.width, imgH := back_grid.height
     x := x_centered, y := y_centered
     drawW := front_width * scale_factor, drawH := front_height * scale_factor })

/-- One row of `holes_data` at the end of the pipeline: its hole number and
its processed image (`None` for a hole whose download or configuration was
missing). -/
structure ProcessedHole where
  hole_number : ℕ
  processed_image : Option Img
deriving DecidableEq, Repr

/-- The nine-splitting step of the button handler:
`holes_data = holes_data.iloc[::-1]`, then the processed-image column is
read off in that (reversed) order and sliced positionally as
`processed_images[:9]` / `processed_images[9:]`. -/
def splitNines (holes : List ProcessedHole) :
    List (Option Img) × List (Option Img) :=
  let processed_images := holes.reverse.map (fun h => h.processed_image)
  (processed_images.take 9, processed_images.drop 9)

/-- The rest of the button handler: both nine-batches must be truthy
(non-empty lists), both grids must be truthy (not `None`), and only then is
the two-page PDF produced. -/
def renderPinSheet (holes : List ProcessedHole) : Option (PdfPage × PdfPage) :=
  let (front_nine, back_nine) := splitNines holes
  if front_nine.isEmpty ∨ back_nine.isEmpty then none
  else
    match create_grid_image front_nine (List.range' 1 9) 3 20,
          create_grid_image back_nine (List.range' 10 9) 3 20 with
    | some front_grid, some back_grid => some (create_pdf_with_grids front_grid back_grid)
    | _, _ => none

/-! Concrete inputs used by witnesses and counterexamples. -/

/-- 18 processed holes numbered 1–18 in source order, each with a distinct
10 × 10 image tagged by its hole number. -/
def recs18 : List ProcessedHole := (List.range 18).map (fun i => ⟨i + 1, some ⟨10, 10, i + 1⟩⟩)

/-- 18 holes whose processed images are all `None`. -/
def emptyHoles18 : List ProcessedHole := (List.range 18).map (fun i => ⟨i + 1, none⟩)

/-- A configuration response that is a truthy dictionary but lacks the
`green_configuration` key. -/
def cfgMissingInner : ConfigDict := ⟨none⟩

/-- A benign configuration: `hole_location` key present with a null value,
no other zones. -/
def cfgBenign : GreenConfiguration := ⟨some none, none, none, none⟩

/-- A hole row whose annotation raises (`KeyError 'green_configuration'`). -/
def badRow : HoleRow := ⟨1, 100, 100, true, some cfgMissingInner⟩

/-- A hole row that annotates successfully. -/
def goodRow : HoleRow := ⟨2, 100, 100, true, some ⟨some cfgBenign⟩⟩

/-- A configuration whose `hole_location` key is absent while a complete
approach zone is present. -/
def cfgNoHoleKey : GreenConfiguration :=
  ⟨none, some ⟨some ⟨1/4, 1/4⟩, some ⟨3/4, 3/4⟩⟩, none, none⟩

/-- A 1000 × 1000 front grid (only the size matters to the page renderer). -/
def sampleFront : GridImage := ⟨1000, 1000, []⟩

/-- A 500 × 800 back grid of a different size and aspect ratio. -/
def sampleBack : GridImage := ⟨500, 800, []⟩

/-- A front nine whose second slot (hole 2) has no image; the other eight
slots carry 10 × 10 images tagged by their hole numbers. -/
def imgsMissing2 : List (Option Img) :=
  (List.range 9).map (fun k => if k = 1 then none else some ⟨10, 10, k + 1⟩)

/-! Helper lemmas about `pyInt` and `isInt`. -/

theorem pyInt_intCast (n : ℤ) : pyInt (n : ℚ) = n := by
  unfold pyInt
  split <;> simp

theorem isInt_pyInt {q : ℚ} (h : isInt q) : ((pyInt q : ℤ) : ℚ) = q := by
  obtain ⟨n, rfl⟩ := h
  rw [pyInt_intCast]

theorem isInt_min {a b : ℚ} (ha : isInt a) (hb : isInt b) : isInt (min a b) := by
  obtain ⟨m, rfl⟩ := ha
  obtain ⟨n, rfl⟩ := hb
  exact ⟨min m n, by push_cast; rfl⟩

theorem isInt_max {a b : ℚ} (ha : isInt a) (hb : isInt b) : isInt (max a b) := by
  obtain ⟨m, rfl⟩ := ha
  obtain ⟨n, rfl⟩ := hb
  exact ⟨max m n, by push_cast; rfl⟩

theorem isInt_add {a b : ℚ} (ha : isInt a) (hb : isInt b) : isInt (a + b) := by
  obtain ⟨m, rfl⟩ := ha
  obtain ⟨n, rfl⟩ := hb
  exact ⟨m + n, by push_cast; rfl⟩

theorem isInt_sub {a b : ℚ} (ha : isInt a) (hb : isInt b) : isInt (a - b) := by
  obtain ⟨m, rfl⟩ := ha
  obtain ⟨n, rfl⟩ := hb
  exact ⟨m - n, by push_cast; rfl⟩

/-- C1: the claim is false on the code.  With 18 records in source order
(hole 1 first), hole 1's image is assigned to the *back*-nine grid batch,
not the front one, and reversing the input records changes the assignment,
so the split is positional, not driven by the numeric hole number. -/
theorem c1_counterexample :
    some (⟨10, 10, 1⟩ : Img) ∈ (splitNines recs18).2 ∧
    some (⟨10, 10, 1⟩ : Img) ∉ (splitNines recs18).1 ∧
    splitNines recs18.reverse ≠ splitNines recs18 := by decide

/-- C1 (amended): the code reverses the record sequence and splits it
positionally.  For an 18-record input the front-nine batch holds the images
of the *last* nine source records in reverse order and the back-nine batch
those of the first nine, and the hole-number column has no influence on the
split (renumbering the holes arbitrarily leaves both batches unchanged). -/
theorem c1_amended (holes : List ProcessedHole) (h18 : holes.length = 18) :
    (splitNines holes).1 = ((holes.drop 9).reverse).map (fun h => h.processed_image) ∧
    (splitNines holes).2 = ((holes.take 9).reverse).map (fun h => h.processed_image) ∧
    ∀ f : ℕ → ℕ,
      splitNines (holes.map (fun h => ⟨f h.hole_number, h.processed_image⟩)) =
        splitNines holes := by
  refine ⟨?_, ?_, ?_⟩
  · simp [splitNines, List.take_reverse, h18, List.map_take, List.map_reverse, List.map_drop]
  · simp [splitNines, List.drop_reverse, h18, List.map_take, List.map_reverse, List.map_drop]
  · intro f
    simp [splitNines, List.map_map, Function.comp_def]

/-- C1 witness: the amended statement at the concrete 18-record input. -/
theorem c1_amended_witness :
    recs18.length = 18 ∧
    (splitNines recs18).1 = ((recs18.drop 9).reverse).map (fun h => h.processed_image) :=
  ⟨by decide, (c1_amended recs18 (by decide)).1⟩

/-- C2: at the failing input (first row's stored configuration lacks the
`green_configuration` key, so annotation raises; second row is fine) the
`except` branch appends nothing, leaving a 1-element result list for 2 rows,
and the final DataFrame column assignment raises `ValueError`, aborting the
batch — the failed hole is not recorded as a blank slot and the per-hole
list does not stay aligned, contradicting the claim even though the loop
itself visits the remaining row successfully. -/
theorem c2_exception_misaligns_batch :
    process_images_with_configurations [badRow, goodRow] = .error () ∧
    ([badRow, goodRow].filterMap processOneRow).length = 1 ∧
    processOneRow goodRow = some (some []) :=
  ⟨rfl, rfl, rfl⟩

/-- C3: the claim is false on the code.  With a 1000 × 1000 front grid and a
500 × 800 back grid, the back page's image is not drawn at
`min(availableWidth/gridWidth, availableHeight/gridHeight)` of its own
dimensions — the page renderer reuses the front grid's scale factor and even
the front grid's width and height for the back page's rectangle, so the back
image is not even scaled uniformly. -/
theorem c3_counterexample :
    (create_pdf_with_grids sampleFront sampleBack).2.drawW ≠
      (sampleBack.width : ℚ) *
        min ((612 - 2 * 25 : ℚ) / sampleBack.width)
            ((792 - 2 * 25 - 50 : ℚ) / sampleBack.height) ∧
    (create_pdf_with_grids sampleFront sampleBack).2.drawW /
        ((create_pdf_with_grids sampleFront sampleBack).2.imgW : ℚ) ≠
      (create_pdf_with_grids sampleFront sampleBack).2.drawH /
        ((create_pdf_with_grids sampleFront sampleBack).2.imgH : ℚ) := by
  constructor <;> norm_num [create_pdf_with_grids, sampleFront, sampleBack, min_def]

/-- C3 (amended): the scale factor is computed once, from the front grid's
dimensions, as `min(562/frontW, 692/frontH)` (available area = letter page
minus 25 pt margins minus the 50 pt header block); the front page's image is
drawn at that uniform scale, centered with equal leftover horizontal margin
on both sides; the back page reuses the front page's position and rectangle
verbatim, which coincides with the claimed per-page fit exactly when the two
grids share dimensions (last two conjuncts). -/
theorem c3_amended (front back : GridImage) :
    ∃ s : ℚ,
      s = min ((612 - 2 * 25 : ℚ) / front.width) ((792 - 2 * 25 - 50 : ℚ) / front.height) ∧
      (create_pdf_with_grids front back).1.drawW = front.width * s ∧
      (create_pdf_with_grids front back).1.drawH = front.height * s ∧
      (create_pdf_with_grids front back).1.x - 25 =
        (612 - 2 * 25) - ((create_pdf_with_grids front back).1.x - 25) -
          (create_pdf_with_grids front back).1.drawW ∧
      (create_pdf_with_grids front back).2.x = (create_pdf_with_grids front back).1.x ∧
      (create_pdf_with_grids front back).2.y = (create_pdf_with_grids front back).1.y ∧
      (create_pdf_with_grids front back).2.drawW = (create_pdf_with_grids front back).1.drawW ∧
      (create_pdf_with_grids front back).2.drawH = (create_pdf_with_grids front back).1.drawH ∧
      (create_pdf_with_grids front front).2.drawW = front.width * s ∧
      (create_pdf_with_grids front front).2.drawH = front.height * s := by
  refine ⟨_, rfl, rfl, rfl, ?_, rfl, rfl, rfl, rfl, rfl, rfl⟩
  simp only [create_pdf_with_grids]
  ring

/-- C6: the claim is false on the code.  A record whose `hole_location` key
is absent raises `KeyError` (the source reads it with subscripting, unlike
the `.get` used for the other three zones), so a missing holeLocation is not
silently skipped — and it prevents the fully-present approach zone of the
same record from being drawn at all. -/
theorem c6_counterexample :
    draw_90_degree_lines 100 100 cfgNoHoleKey = .error () ∧
    approachOps 100 100 cfgNoHoleKey.approach ≠ [] := by
  constructor
  · rfl
  · show ¬_ = _
    norm_num [approachOps, cfgNoHoleKey]
    exact List.cons_ne_nil _ _

/-- C6 (amended): when the `hole_location` key is present (even with a null
value) the four zones are handled strictly independently — the emitted
operations are the concatenation of four per-zone contributions, each a
function of its own zone only, and a null or partial zone simply contributes
nothing; but a record lacking the `hole_location` key altogether raises
`KeyError` instead of being skipped. -/
theorem c6_amended (W H : ℚ) (hl : Option Zone) (a g c : Option Zone) :
    draw_90_degree_lines W H ⟨some hl, a, g, c⟩ =
      .ok (pinOps W H hl ++ approachOps W H a ++ goForOps W H g ++ crosshairsOps W H c) ∧
    draw_90_degree_lines W H ⟨none, a, g, c⟩ = .error () := by
  constructor
  · rfl
  · rfl

/-- C7: a zone record carrying exactly one of `origin`/`extent` is treated
as absent: whether it sits in the approach, go-for or crosshairs slot, the
overlay pass emits exactly the operations it would emit with that slot null,
so the zone leaves the image unchanged. -/
theorem c7_partial_zone_not_drawn (W H : ℚ) (hl : Option Zone) (a g c : Option Zone) (z : Zone)
    (hz : (z.origin.isSome ∧ z.extent = none) ∨ (z.origin = none ∧ z.extent.isSome)) :
    draw_90_degree_lines W H ⟨some hl, some z, g, c⟩ =
      draw_90_degree_lines W H ⟨some hl, none, g, c⟩ ∧
    draw_90_degree_lines W H ⟨some hl, a, some z, c⟩ =
      draw_90_degree_lines W H ⟨some hl, a, none, c⟩ ∧
    draw_90_degree_lines W H ⟨some hl, a, g, some z⟩ =
      draw_90_degree_lines W H ⟨some hl, a, g, none⟩ := by
  obtain ⟨zo, ze⟩ := z
  rcases hz with ⟨ho, he⟩ | ⟨ho, he⟩
  · obtain ⟨p, hp⟩ := Option.isSome_iff_exists.mp ho
    subst hp
    subst he
    exact ⟨rfl, rfl, rfl⟩
  · obtain ⟨p, hp⟩ := Option.isSome_iff_exists.mp he
    subst hp
    subst ho
    exact ⟨rfl, rfl, rfl⟩

/-- C7 witness: an origin-only zone at a concrete input. -/
theorem c7_witness :
    (((⟨some ⟨1/4, 1/4⟩, none⟩ : Zone).origin.isSome ∧
        (⟨some ⟨1/4, 1/4⟩, none⟩ : Zone).extent = none) ∨
      ((⟨some ⟨1/4, 1/4⟩, none⟩ : Zone).origin = none ∧
        (⟨some ⟨1/4, 1/4⟩, none⟩ : Zone).extent.isSome)) ∧
    draw_90_degree_lines 100 100 ⟨some none, some ⟨some ⟨1/4, 1/4⟩, none⟩, none, none⟩ =
      draw_90_degree_lines 100 100 ⟨some none, none, none, none⟩ :=
  ⟨Or.inl ⟨rfl, rfl⟩,
   (c7_partial_zone_not_drawn 100 100 none none none none ⟨some ⟨1/4, 1/4⟩, none⟩
      (Or.inl ⟨rfl, rfl⟩)).1⟩

/-- C8: an approach or go-for zone with both corners present draws exactly
two segments of stroke width 3 (green for approach, orange for go-for): a
vertical segment at the *origin's* x spanning `[min(y1,y2), max(y1,y2)]` and
a horizontal segment at the *origin's* y spanning `[min(x1,x2), max(x1,x2)]`
— the origin's own coordinates, not the midpoint's.  (The go-for block
passes its coordinates through `int(...)`; the hypotheses state that the
go-for corner pixels are integral, so that truncation is the identity.) -/
theorem c8_bracket_segments (W H : ℚ) (o e o2 e2 : Pt)
    (h1 : isInt (o2.x * W)) (h2 : isInt (o2.y * H))
    (h3 : isInt (e2.x * W)) (h4 : isInt (e2.y * H)) :
    draw_90_degree_lines W H ⟨some none, some ⟨some o, some e⟩, some ⟨some o2, some e2⟩, none⟩ =
      .ok [.line (o.x * W) (min (o.y * H) (e.y * H)) (o.x * W) (max (o.y * H) (e.y * H)) .green 3,
           .line (min (o.x * W) (e.x * W)) (o.y * H) (max (o.x * W) (e.x * W)) (o.y * H) .green 3,
           .line (o2.x * W) (min (o2.y * H) (e2.y * H)) (o2.x * W) (max (o2.y * H) (e2.y * H)) .orange 3,
           .line (min (o2.x * W) (e2.x * W)) (o2.y * H) (max (o2.x * W) (e2.x * W)) (o2.y * H) .orange 3] := by
  simp [draw_90_degree_lines, isInt_pyInt h1, isInt_pyInt h2,
        isInt_pyInt (isInt_min h2 h4), isInt_pyInt (isInt_max h2 h4),
        isInt_pyInt (isInt_min h1 h3), isInt_pyInt (isInt_max h1 h3)]

/-- C8 witness: both brackets at a concrete configuration on a 100 × 100
image; the four drawn segments evaluate to their pixel values. -/
theorem c8_witness :
    isInt ((1/4 : ℚ) * 100) ∧ isInt ((1/2 : ℚ) * 100) ∧ isInt ((3/4 : ℚ) * 100) ∧
    draw_90_degree_lines 100 100
        ⟨some none, some ⟨some ⟨1/4, 1/4⟩, some ⟨1/2, 1/2⟩⟩,
         some ⟨some ⟨1/4, 1/2⟩, some ⟨3/4, 3/4⟩⟩, none⟩ =
      .ok [.line 25 25 25 50 .green 3, .line 25 25 50 25 .green 3,
           .line 25 50 25 75 .orange 3, .line 25 50 75 50 .orange 3] := by
  refine ⟨⟨25, by norm_num⟩, ⟨50, by norm_num⟩, ⟨75, by norm_num⟩, ?_⟩
  have h := c8_bracket_segments 100 100 ⟨1/4, 1/4⟩ ⟨1/2, 1/2⟩ ⟨1/4, 1/2⟩ ⟨3/4, 3/4⟩
    ⟨25, by norm_num⟩ ⟨50, by norm_num⟩ ⟨75, by norm_num⟩ ⟨75, by norm_num⟩
  rw [h]
  norm_num [min_def, max_def]

/-- C9: a crosshairs zone with both corners present draws an outlined red
circle of width 2 centered at the bounding rectangle's midpoint with radius
half of the smaller rectangle side, plus a red full-width horizontal line
through the center y and a red full-height vertical line through the center
x, both width 2; and for a zero-width rectangle (`origin.x = extent.x`) the
operation still succeeds, with radius 0 and the centerlines still drawn.
The named values `xs …, r` are fixed by the equation hypotheses; the `isInt`
hypotheses make the source's `int(...)` truncations the identity. -/
theorem c9_crosshair (W H : ℚ) (o e : Pt) (xs xe ys ye cx cy r : ℚ)
    (hxs : xs = min (o.x * W) (e.x * W)) (hxe : xe = max (o.x * W) (e.x * W))
    (hys : ys = min (o.y * H) (e.y * H)) (hye : ye = max (o.y * H) (e.y * H))
    (hcx : cx = (xs + xe) / 2) (hcy : cy = (ys + ye) / 2)
    (hr : r = min (xe - xs) (ye - ys) / 2)
    (ixs : isInt xs) (ixe : isInt xe) (iys : isInt ys) (iye : isInt ye)
    (icx : isInt cx) (icy : isInt cy) (ir : isInt r) :
    draw_90_degree_lines W H ⟨some none, none, none, some ⟨some o, some e⟩⟩ =
      .ok [.ellipseOutline (cx - r) (cy - r) (cx + r) (cy + r) .red 2,
           .line xs cy xe cy .red 2,
           .line cx ys cx ye .red 2] ∧
    (o.x = e.x → r = 0) := by
  constructor
  · subst hr
    subst hcx
    subst hcy
    subst hxs
    subst hxe
    subst hys
    subst hye
    rw [min_add_max] at icx
    rw [min_add_max] at icy
    simp [draw_90_degree_lines, isInt_pyInt (isInt_sub icx ir), isInt_pyInt (isInt_add icx ir),
          isInt_pyInt (isInt_sub icy ir), isInt_pyInt (isInt_add icy ir),
          isInt_pyInt ixs, isInt_pyInt ixe, isInt_pyInt iys, isInt_pyInt iye,
          isInt_pyInt icx, isInt_pyInt icy]
  · intro hx
    subst hr
    subst hxs
    subst hxe
    subst hys
    subst hye
    rw [hx]
    simp

/-- C9 witness: the crosshairs at a concrete configuration on a 100 × 100
image, with the circle and both centerlines at their pixel values. -/
theorem c9_witness :
    (10 : ℚ) = min ((1/10 : ℚ) * 100) ((1/2 : ℚ) * 100) ∧
    (50 : ℚ) = max ((1/10 : ℚ) * 100) ((1/2 : ℚ) * 100) ∧
    (10 : ℚ) = min ((1/10 : ℚ) * 100) ((9/10 : ℚ) * 100) ∧
    (90 : ℚ) = max ((1/10 : ℚ) * 100) ((9/10 : ℚ) * 100) ∧
    (30 : ℚ) = (10 + 50) / 2 ∧ (50 : ℚ) = (10 + 90) / 2 ∧
    (20 : ℚ) = min (50 - 10 : ℚ) (90 - 10 : ℚ) / 2 ∧
    draw_90_degree_lines 100 100
        ⟨some none, none, none, some ⟨some ⟨1/10, 1/10⟩, some ⟨1/2, 9/10⟩⟩⟩ =
      .ok [.ellipseOutline 10 30 50 70 .red 2, .line 10 50 50 50 .red 2,
           .line 30 10 30 90 .red 2] := by
  refine ⟨by norm_num [min_def], by norm_num [max_def], by norm_num [min_def],
          by norm_num [max_def], by norm_num, by norm_num, by norm_num [min_def], ?_⟩
  have h := (c9_crosshair 100 100 ⟨1/10, 1/10⟩ ⟨1/2, 9/10⟩ 10 50 10 90 30 50 20
    (by norm_num [min_def]) (by norm_num [max_def]) (by norm_num [min_def]) (by norm_num [max_def])
    (by norm_num) (by norm_num) (by norm_num [min_def])
    ⟨10, by norm_num⟩ ⟨50, by norm_num⟩ ⟨10, by norm_num⟩ ⟨90, by norm_num⟩
    ⟨30, by norm_num⟩ ⟨50, by norm_num⟩ ⟨20, by norm_num⟩).1
  rw [h]
  norm_num

/-- C4: with a full front nine (9 present images of uniform size `iw × ih`,
hole numbers 1–9) and margin 20, the image of slot index `i` is pasted with
its top-left pixel at `(20 + (i div 3)*(iw+20), 20 + (i mod 3)*(ih+20))` —
column-major order, so holes land in the visual layout 1 4 7 / 2 5 8 /
3 6 9; in particular hole 1 (i = 0) at `(20, 20)` and hole 9 (i = 8) at
`(20 + 2*(iw+20), 20 + 2*(ih+20))`. -/
theorem c4_grid_placement (iw ih : ℕ) (t : ℕ → ℕ) (i : ℕ) (hi : i < 9) :
    ∃ g, create_grid_image ((List.range 9).map (fun k => some ⟨iw, ih, t k⟩))
            (List.range' 1 9) 3 20 = some g ∧
      GridOp.paste (t i) (20 + i / 3 * (iw + 20)) (20 + i % 3 * (ih + 20)) ∈ g.ops := by
  refine ⟨_, rfl, ?_⟩
  interval_cases i <;>
    simp [create_grid_image, gridCellOps, lookupCellImage, pySubscript]
  · exact ⟨0, 1, by decide, by simp⟩
  · exact ⟨1, 2, by decide, by simp⟩
  · exact ⟨2, 3, by decide, by simp⟩
  · exact ⟨3, 4, by decide, by simp⟩
  · exact ⟨4, 5, by decide, by simp⟩
  · exact ⟨5, 6, by decide, by simp⟩
  · exact ⟨6, 7, by decide, by simp⟩
  · exact ⟨7, 8, by decide, by simp⟩
  · exact ⟨8, 9, by decide, by simp⟩

/-- C4 witness: slot 0 (hole 1) of a full nine of 100 × 80 images is pasted
at `(20, 20)`. -/
theorem c4_witness :
    (0 : ℕ) < 9 ∧
    ∃ g, create_grid_image ((List.range 9).map (fun k => some ⟨100, 80, k⟩))
            (List.range' 1 9) 3 20 = some g ∧
      GridOp.paste 0 (20 + 0 / 3 * (100 + 20)) (20 + 0 % 3 * (80 + 20)) ∈ g.ops :=
  ⟨by decide, c4_grid_placement 100 80 (fun k => k) 0 (by decide)⟩

/-- C10: in grid composition every emitted operation — paste, badge circle
or badge text — comes from the loop body of a cell whose looked-up image is
present, so a cell with a missing (null) image contributes nothing at all
(no paste, no badge, no placeholder — its region stays white background);
and a badge number appears exactly for the enumerated holes whose image is
present. -/
theorem c10_blank_cells (images : List (Option Img)) (hole_numbers : List ℕ)
    (grid_size margin_size : ℕ) (g : GridImage)
    (hg : create_grid_image images hole_numbers grid_size margin_size = some g) :
    ∃ first rest, images.filterMap id = first :: rest ∧
      (∀ op ∈ g.ops, ∃ i n, (i, n) ∈ hole_numbers.enum ∧
          (lookupCellImage images n).isSome ∧
          op ∈ gridCellOps images grid_size margin_size first.width first.height i n) ∧
      (∀ i n, (i, n) ∈ hole_numbers.enum → (lookupCellImage images n).isSome →
          GridOp.badgeText n ∈ g.ops) ∧
      (∀ n, GridOp.badgeText n ∈ g.ops → (lookupCellImage images n).isSome) := by
  rcases hfm : images.filterMap id with _ | ⟨first, rest⟩
  · simp [create_grid_image, hfm] at hg
  · have hops : g.ops = hole_numbers.enum.flatMap
        (fun p => gridCellOps images grid_size margin_size first.width first.height p.1 p.2) := by
      simp [create_grid_image, hfm] at hg
      rw [← hg]
    refine ⟨first, rest, rfl, ?_, ?_, ?_⟩
    · intro op hop
      rw [hops, List.mem_flatMap] at hop
      obtain ⟨p, hp, hmem⟩ := hop
      refine ⟨p.1, p.2, hp, ?_, hmem⟩
      cases h : lookupCellImage images p.2 with
      | none => simp [gridCellOps, h] at hmem
      | some img => simp
    · intro i n hin hsome
      rw [hops, List.mem_flatMap]
      obtain ⟨img, himg⟩ := Option.isSome_iff_exists.mp hsome
      exact ⟨(i, n), hin, by simp [gridCellOps, himg]⟩
    · intro n hmem
      rw [hops, List.mem_flatMap] at hmem
      obtain ⟨p, hp, hm⟩ := hmem
      cases h : lookupCellImage images p.2 with
      | none => simp [gridCellOps, h] at hm
      | some img =>
        simp [gridCellOps, h] at hm
        rw [hm]
        simp [h]

/-- C10 witness: a front nine whose hole-2 slot is missing. -/
theorem c10_witness :
    create_grid_image imgsMissing2 (List.range' 1 9) 3 20 =
      some ((create_grid_image imgsMissing2 (List.range' 1 9) 3 20).getD ⟨0, 0, []⟩) ∧
    ∃ first rest, imgsMissing2.filterMap id = first :: rest ∧
      (∀ op ∈ ((create_grid_image imgsMissing2 (List.range' 1 9) 3 20).getD ⟨0, 0, []⟩).ops,
          ∃ i n, (i, n) ∈ (List.range' 1 9).enum ∧
          (lookupCellImage imgsMissing2 n).isSome ∧
          op ∈ gridCellOps imgsMissing2 3 20 first.width first.height i n) ∧
      (∀ i n, (i, n) ∈ (List.range' 1 9).enum → (lookupCellImage imgsMissing2 n).isSome →
          GridOp.badgeText n ∈
            ((create_grid_image imgsMissing2 (List.range' 1 9) 3 20).getD ⟨0, 0, []⟩).ops) ∧
      (∀ n, GridOp.badgeText n ∈
            ((create_grid_image imgsMissing2 (List.range' 1 9) 3 20).getD ⟨0, 0, []⟩).ops →
          (lookupCellImage imgsMissing2 n).isSome) :=
  ⟨rfl, c10_blank_cells imgsMissing2 (List.range' 1 9) 3 20 _ rfl⟩

/-- C5: composing a grid from a sequence whose entries are all empty/null
fails (an error is reported and `None` is returned in place of a grid), and
at document level a round whose front-nine batch is all null yields no PDF
at all — no blank document is emitted. -/
theorem c5_empty_nine (images : List (Option Img)) (hole_numbers : List ℕ)
    (grid_size margin_size : ℕ) (holes : List ProcessedHole)
    (h1 : ∀ x ∈ images, x = none)
    (h2 : ∀ x ∈ (splitNines holes).1, x = none) :
    create_grid_image images hole_numbers grid_size margin_size = none ∧
    renderPinSheet holes = none := by
  have hfm : ∀ (l : List (Option Img)), (∀ x ∈ l, x = none) → l.filterMap id = [] := by
    intro l hl
    rw [List.filterMap_eq_nil_iff]
    intro a ha
    rw [hl a ha]
    rfl
  constructor
  · simp [create_grid_image, hfm images h1]
  · rcases hsp : splitNines holes with ⟨f, b⟩
    rw [hsp] at h2
    simp only at h2
    have hfront : create_grid_image f (List.range' 1 9) 3 20 = none := by
      simp [create_grid_image, hfm f h2]
    simp [renderPinSheet, hsp, hfront]

/-- C5 witness: an all-null image list and an 18-hole round with no
processed images. -/
theorem c5_witness :
    (∀ x ∈ ([none, none] : List (Option Img)), x = none) ∧
    (∀ x ∈ (splitNines emptyHoles18).1, x = none) ∧
    (create_grid_image [none, none] [1, 2] 3 20 = none ∧
     renderPinSheet emptyHoles18 = none) :=
  ⟨by decide, by decide,
   c5_empty_nine [none, none] [1, 2] 3 20 emptyHoles18 (by decide) (by decide)⟩
